import Mathlib

/-!
Verification of the WAV-to-PCAP converter (`wav_to_pcap_converter.py`).

The development shallowly embeds the packet-construction pipeline of the
script: the `RTPPacket` class and its `build_header` method, the chunking /
silence-padding / sequence-and-timestamp loop of `convert_wav_to_pcap`, the
scapy `Ether()/IP()/UDP()/Raw()` encapsulation it performs per chunk, the
`wrpcap` capture writer, and the `batch_convert` / `main` orchestration.

Conventions used throughout:
* bytes are `Nat` values (the Python `bytes` objects become `List Nat`);
* `struct.pack` field checks are modelled by `Option`: packing a value that
  is out of range for its format character yields `none`, exactly as
  `struct.error` is raised in Python;
* a function of the script that returns `False` after catching an exception
  is modelled by an `Option`-valued function returning `none`;
* file names are `List Char`, so Python string operations (`lower`,
  `endswith`, `in`, `replace`) are embedded as `List Char` functions.
-/

/-- Big-endian encoding of a 16-bit quantity, two bytes (the byte images of
`struct.pack("!H", n)` once the range check has passed). -/
def u16be (n : Nat) : List Nat := [n / 256 % 256, n % 256]

/-- Big-endian encoding of a 32-bit quantity, four bytes (the byte images of
`struct.pack("!I", n)` once the range check has passed). -/
def u32be (n : Nat) : List Nat :=
  [n / 16777216 % 256, n / 65536 % 256, n / 256 % 256, n % 256]

/-- Models `struct.pack` format character `B`: one unsigned byte; Python
raises `struct.error` when the value is out of range, modelled by `none`. -/
def packB (n : Nat) : Option (List Nat) := if n < 256 then some [n] else none

/-- Models `struct.pack` format character `H` (network order): 16-bit
unsigned; out-of-range values raise, modelled by `none`. -/
def packH (n : Nat) : Option (List Nat) := if n < 65536 then some (u16be n) else none

/-- Models `struct.pack` format character `I` (network order): 32-bit
unsigned; out-of-range values raise, modelled by `none`. -/
def packI (n : Nat) : Option (List Nat) :=
  if n < 4294967296 then some (u32be n) else none

/-- The `RTPPacket` class of the script (lines 17-29): header fields of one
RTP packet. -/
structure RTPPacket where
  version : Nat
  padding : Nat
  extension : Nat
  csrc_count : Nat
  marker : Nat
  payload_type : Nat
  seq_num : Nat
  timestamp : Nat
  ssrc : Nat
deriving DecidableEq, Repr

/-- The default SSRC of `RTPPacket.__init__` (line 20): `0xABCDEF01`. -/
def defaultSSRC : Nat := 0xABCDEF01

/-- Models `RTPPacket.__init__` (lines 20-29): version 2, padding, extension,
CSRC count and marker all fixed to 0; payload type, sequence number,
timestamp and SSRC taken from the arguments.  `convert_wav_to_pcap` always
leaves `ssrc` at its default `defaultSSRC`. -/
def RTPPacket.init (payload_type seq_num timestamp ssrc : Nat) : RTPPacket :=
  { version := 2
    padding := 0
    extension := 0
    csrc_count := 0
    marker := 0
    payload_type := payload_type
    seq_num := seq_num
    timestamp := timestamp
    ssrc := ssrc }

/-- Models `RTPPacket.build_header` (lines 31-47): byte0 =
(version<<6)|(padding<<5)|(extension<<4)|csrc_count, byte1 = (marker<<7)|
payload_type, then `struct.pack("!BBHII", ...)` in network byte order.
`none` models the `struct.error` raised on an out-of-range field. -/
def RTPPacket.build_header (p : RTPPacket) : Option (List Nat) :=
  let first_byte := p.version <<< 6 ||| p.padding <<< 5 ||| p.extension <<< 4 ||| p.csrc_count
  let second_byte := p.marker <<< 7 ||| p.payload_type
  do
    let b0 ← packB first_byte
    let b1 ← packB second_byte
    let sq ← packH p.seq_num
    let tsb ← packI p.timestamp
    let ssb ← packI p.ssrc
    pure (b0 ++ b1 ++ sq ++ tsb ++ ssb)

/-- The byte sequence `build_header` produces for a packet built by
`RTPPacket.init` whose fields are all in range. -/
def rtpHeaderBytes (payload_type seq_num timestamp ssrc : Nat) : List Nat :=
  [128, payload_type] ++ u16be seq_num ++ u32be timestamp ++ u32be ssrc

/-- Parses a 12-byte RTP header laid out as documented: byte0 =
(version<<6)|(padding<<5)|(extension<<4)|csrc_count, byte1 =
(marker<<7)|payload_type, then big-endian 16-bit sequence number, 32-bit
timestamp and 32-bit SSRC. -/
def parseHeader (b : List Nat) : RTPPacket :=
  let b0 := b.getD 0 0
  let b1 := b.getD 1 0
  { version := b0 / 64 % 4
    padding := b0 / 32 % 2
    extension := b0 / 16 % 2
    csrc_count := b0 % 16
    marker := b1 / 128 % 2
    payload_type := b1 % 128
    seq_num := b.getD 2 0 * 256 + b.getD 3 0
    timestamp := b.getD 4 0 * 16777216 + b.getD 5 0 * 65536 + b.getD 6 0 * 256 + b.getD 7 0
    ssrc := b.getD 8 0 * 16777216 + b.getD 9 0 * 65536 + b.getD 10 0 * 256 + b.getD 11 0 }

/-- Splits a byte sequence into big-endian 16-bit words, zero-padding an odd
trailing byte, as scapy's `checksum()` helper does before summing. -/
def words16 : List Nat → List Nat
  | [] => []
  | [a] => [a * 256]
  | a :: b :: rest => (a * 256 + b) :: words16 rest

/-- Models scapy's internet-checksum helper: one's-complement of the
one's-complement 16-bit sum of the data (carries folded back in twice, then
complemented and masked to 16 bits). -/
def scapyChecksum (bytes : List Nat) : Nat :=
  let s0 := (words16 bytes).foldl (· + ·) 0
  let s1 := s0 / 65536 + s0 % 65536
  let s2 := s1 + s1 / 65536
  65535 - s2 % 65536

/-- The 14-byte Ethernet header scapy emits for a default `Ether()` layer:
broadcast destination, zero source, EtherType 0x0800 (IPv4). -/
def etherHeaderBytes : List Nat :=
  List.replicate 6 0xff ++ List.replicate 6 0x00 ++ u16be 0x0800

/-- The 20-byte IPv4 header scapy builds for `IP(src=..., dst=...)` over UDP,
with the checksum field still zero: version 4 / IHL 5, TOS 0, the given total
length, identification 1, no flags/fragment, TTL 64, protocol 17 (UDP). -/
def ipv4HeaderZeroCk (src dst totalLen : Nat) : List Nat :=
  [0x45, 0] ++ u16be totalLen ++ u16be 1 ++ u16be 0 ++ [64, 17] ++ u16be 0
    ++ u32be src ++ u32be dst

/-- The 20-byte IPv4 header with its checksum computed from the actual header
contents, as scapy fills it in when the field is left unset. -/
def ipv4Header (src dst totalLen : Nat) : List Nat :=
  [0x45, 0] ++ u16be totalLen ++ u16be 1 ++ u16be 0 ++ [64, 17]
    ++ u16be (scapyChecksum (ipv4HeaderZeroCk src dst totalLen))
    ++ u32be src ++ u32be dst

/-- The UDP checksum scapy computes over the IPv4 pseudo-header, the UDP
header with a zero checksum field, and the payload; a computed value of zero
is transmitted as 0xFFFF. -/
def udpChecksum (src dst sport dport : Nat) (payload : List Nat) : Nat :=
  let udpLen := 8 + payload.length
  let pseudo := u32be src ++ u32be dst ++ [0, 17] ++ u16be udpLen
  let c := scapyChecksum
    (pseudo ++ u16be sport ++ u16be dport ++ u16be udpLen ++ u16be 0 ++ payload)
  if c = 0 then 65535 else c

/-- The 8-byte UDP header scapy builds for `UDP(sport=..., dport=...)`: both
ports, length 8 + payload length, computed checksum. -/
def udpHeader (src dst sport dport : Nat) (payload : List Nat) : List Nat :=
  u16be sport ++ u16be dport ++ u16be (8 + payload.length)
    ++ u16be (udpChecksum src dst sport dport payload)

/-- The serialized bytes of one frame
`Ether()/IP(src,dst)/UDP(sport,dport)/Raw(load=payload)` (line 119-124): the
IP total length is 20 (IP) + 8 (UDP) + payload length and the UDP length is
8 + payload length, both computed from the actual payload. -/
def frameBytes (src_ip dst_ip src_port dst_port : Nat) (payload : List Nat) : List Nat :=
  etherHeaderBytes ++ ipv4Header src_ip dst_ip (28 + payload.length)
    ++ udpHeader src_ip dst_ip src_port dst_port payload ++ payload

/-- Models building and serializing one scapy frame.  IP addresses are taken
already parsed to their 32-bit values.  `none` models the `struct.error`
scapy raises while serializing when a 16-bit length or port field overflows
(or an address is invalid); the exception is caught by
`convert_wav_to_pcap`'s `except` clause. -/
def buildFrame (src_ip dst_ip src_port dst_port : Nat) (payload : List Nat) :
    Option (List Nat) :=
  if src_ip < 4294967296 ∧ dst_ip < 4294967296 ∧ src_port < 65536 ∧ dst_port < 65536
      ∧ 28 + payload.length ≤ 65535
  then some (frameBytes src_ip dst_ip src_port dst_port payload)
  else none

/-- Models lines 104-109 of the loop body: `chunk = audio_data[i : i +
packet_size]`, then right-padding with the G.711 silence byte `0x7f` when the
chunk is shorter than `packet_size`. -/
def padChunk (audio_data : List Nat) (i packet_size : Nat) : List Nat :=
  let chunk := (audio_data.drop i).take packet_size
  if chunk.length < packet_size
  then chunk ++ List.replicate (packet_size - chunk.length) 0x7f
  else chunk

/-- Models lines 129-131: `seq_num += 1` followed by the reset to 0 once the
16-bit range is exceeded. -/
def nextSeq (seq_num : Nat) : Nat :=
  if seq_num + 1 > 65535 then 0 else seq_num + 1

/-- Fuel-driven evaluation of Python `range(start, stop, step)` for a
positive step; `rangeStep` below supplies fuel `stop - start`, which is
enough because every iteration advances `start` by `step ≥ 1`. -/
def rangeStepAux : Nat → Nat → Nat → Nat → List Nat
  | 0, _, _, _ => []
  | fuel + 1, start, stop, step =>
    if start < stop then start :: rangeStepAux fuel (start + step) stop step else []

/-- Python `range(start, stop, step)` for a positive step. -/
def rangeStep (start stop step : Nat) : List Nat :=
  rangeStepAux (stop - start) start stop step

/-- Models `range(0, stop, step)` on line 103 for an arbitrary integer step:
`none` models the `ValueError` raised for step 0 (caught by the `except`
clause); a negative step gives an empty range because the stop value is
non-negative. -/
def pyRange (stop : Nat) (step : Int) : Option (List Nat) :=
  if step = 0 then none
  else if step < 0 then some []
  else some (rangeStep 0 stop step.toNat)

/-- Everything the loop body of `convert_wav_to_pcap` produces for one audio
chunk: the `RTPPacket` object, the (possibly padded) chunk bytes, the
12-byte RTP header bytes, and the serialized network frame appended to the
packet list. -/
structure PacketRec where
  rtp : RTPPacket
  chunk : List Nat
  header : List Nat
  frame : List Nat
deriving DecidableEq, Repr

/-- A placeholder record used only as the default of `List.getD`. -/
def dummyRec : PacketRec :=
  { rtp := RTPPacket.init 0 0 0 0, chunk := [], header := [], frame := [] }

/-- Models the packet-construction loop of `convert_wav_to_pcap` (lines
103-133), iterating over the chunk start offsets with the `seq_num` /
`timestamp` state; `none` models any exception raised inside the `try`
block (header or frame serialization failure), which makes the function
return `False` with no file written. -/
def packetLoop (src_ip dst_ip src_port dst_port payload_type packet_size : Nat)
    (audio_data : List Nat) : List Nat → Nat → Nat → Option (List PacketRec)
  | [], _, _ => some []
  | i :: rest, seq_num, timestamp =>
    let chunk := padChunk audio_data i packet_size
    let rtp := RTPPacket.init payload_type seq_num timestamp defaultSSRC
    match rtp.build_header with
    | none => none
    | some rtp_header =>
      match buildFrame src_ip dst_ip src_port dst_port (rtp_header ++ chunk) with
      | none => none
      | some frame =>
        match packetLoop src_ip dst_ip src_port dst_port payload_type packet_size
            audio_data rest (nextSeq seq_num) (timestamp + packet_size) with
        | none => none
        | some out =>
          some ({ rtp := rtp, chunk := chunk, header := rtp_header, frame := frame } :: out)

/-- Models `convert_wav_to_pcap` (lines 50-142) on the decoded audio bytes:
the chunk offsets come from `range(0, len(audio_data), packet_size)`, the
loop starts with `seq_num = 1`, `timestamp = 0`, and on success `wrpcap`
writes one record per produced packet.  `some recs` corresponds to the
Python function returning `True` after writing the capture; `none`
corresponds to it returning `False` with no capture written. -/
def convert_wav_to_pcap (src_ip dst_ip src_port dst_port payload_type : Nat)
    (packet_size : Int) (audio_data : List Nat) : Option (List PacketRec) :=
  match pyRange audio_data.length packet_size with
  | none => none
  | some starts =>
    packetLoop src_ip dst_ip src_port dst_port payload_type packet_size.toNat
      audio_data starts 1 0

/-- Models `wrpcap(pcap_file, packets)` (line 136): the capture file holds
one record per packet, in list order (record headers carry wall-clock
capture times, which are not modelled). -/
def wrpcapRecords (recs : List PacketRec) : List (List Nat) :=
  recs.map PacketRec.frame

/-- The closed form of the record the loop body produces for sequence number
`seq_num`, timestamp `timestamp` and chunk offset `i`. -/
def expectedRec (src_ip dst_ip src_port dst_port payload_type packet_size : Nat)
    (audio_data : List Nat) (seq_num timestamp i : Nat) : PacketRec :=
  { rtp := RTPPacket.init payload_type seq_num timestamp defaultSSRC
    chunk := padChunk audio_data i packet_size
    header := rtpHeaderBytes payload_type seq_num timestamp defaultSSRC
    frame := frameBytes src_ip dst_ip src_port dst_port
      (rtpHeaderBytes payload_type seq_num timestamp defaultSSRC
        ++ padChunk audio_data i packet_size) }

/-- Per-file outcome flags for the parts of `convert_wav_to_pcap` that touch
the file system: whether the input path exists (line 73), whether
`wave.open` decodes it (line 79), the decoded audio bytes, and whether
`wrpcap` succeeds in writing the output (line 136). -/
structure WavFile where
  present : Bool
  decodes : Bool
  audio_bytes : List Nat
  writeOk : Bool
deriving DecidableEq, Repr

/-- Models the boolean result of the whole `convert_wav_to_pcap` call (lines
50-142): a missing input, a decode failure, a packet-construction failure or
a write failure each yield `False` (the `try`/`except` converts every
exception into the boolean); otherwise `True`. -/
def convertFileOutcome (src_ip dst_ip src_port dst_port payload_type : Nat)
    (packet_size : Int) (f : WavFile) : Bool :=
  if !f.present then false
  else if !f.decodes then false
  else
    match convert_wav_to_pcap src_ip dst_ip src_port dst_port payload_type
        packet_size f.audio_bytes with
    | none => false
    | some _ => f.writeOk

/-- Python `str.lower` on a filename (ASCII, as used for the `.wav` test). -/
def lowerStr (s : List Char) : List Char := s.map Char.toLower

/-- Python `sub in s` (substring containment) on character lists. -/
def strContains : List Char → List Char → Bool
  | [], pat => pat.isPrefixOf ([] : List Char)
  | c :: rest, pat => pat.isPrefixOf (c :: rest) || strContains rest pat

/-- The two skip tests of `batch_convert` (lines 166-170): keep a directory
entry iff its lower-cased name ends in ".wav" and, when a filter pattern is
given, the pattern occurs in the name (an empty pattern is falsy in Python
and disables the filter, which coincides with every string containing the
empty substring). -/
def wavSelect (file_pattern : Option (List Char)) (filename : List Char) : Bool :=
  (".wav".data.isSuffixOf (lowerStr filename)) &&
    (match file_pattern with
     | none => true
     | some p => strContains filename p)

/-- Fuel-driven core of Python `str.replace(old, new)`: scan left to right,
replacing each non-overlapping occurrence.  Fuel at least the length of the
string suffices when the pattern is nonempty (the script only ever replaces
".wav", so the empty-pattern behavior of Python is never exercised). -/
def strReplaceAux (pat rep : List Char) : Nat → List Char → List Char
  | 0, s => s
  | _ + 1, [] => []
  | fuel + 1, c :: rest =>
    if pat.isPrefixOf (c :: rest)
    then rep ++ strReplaceAux pat rep fuel ((c :: rest).drop pat.length)
    else c :: strReplaceAux pat rep fuel rest

/-- Python `s.replace(pat, rep)` as used on line 173. -/
def strReplace (s pat rep : List Char) : List Char :=
  strReplaceAux pat rep s.length s

/-- Models `os.path.join(output_dir, name)` for the shapes the script uses:
a separator is inserted unless the directory is empty or already ends in
one. -/
def pathJoin (dir name : List Char) : List Char :=
  if dir = [] then name
  else if dir.getLast? = some '/' then dir ++ name
  else dir ++ '/' :: name

/-- One iteration of the `batch_convert` loop (lines 165-178): skip entries
that fail the selection tests; otherwise derive the output path with
`filename.replace(".wav", ".pcap")` joined to the output directory, run the
single-file pipeline, and bump the success or failure count.  The
accumulator also records each derived output path, in processing order. -/
def batchStep (src_ip dst_ip src_port dst_port payload_type : Nat) (packet_size : Int)
    (file_pattern : Option (List Char)) (output_dir : List Char)
    (acc : List (List Char) × Nat × Nat) (nf : List Char × WavFile) :
    List (List Char) × Nat × Nat :=
  if wavSelect file_pattern nf.1 then
    let pcap_path := pathJoin output_dir (strReplace nf.1 ".wav".data ".pcap".data)
    if convertFileOutcome src_ip dst_ip src_port dst_port payload_type packet_size nf.2
    then (acc.1 ++ [pcap_path], acc.2.1 + 1, acc.2.2)
    else (acc.1 ++ [pcap_path], acc.2.1, acc.2.2 + 1)
  else acc

/-- Models `batch_convert` (lines 145-180) over the directory listing (a
list of entry names with their per-file outcome flags): returns the output
paths handed to the single-file pipeline, in order, together with the final
success and failure counts. -/
def batch_convert (src_ip dst_ip src_port dst_port payload_type : Nat) (packet_size : Int)
    (file_pattern : Option (List Char)) (output_dir : List Char)
    (files : List (List Char × WavFile)) : List (List Char) × Nat × Nat :=
  files.foldl
    (batchStep src_ip dst_ip src_port dst_port payload_type packet_size
      file_pattern output_dir) ([], 0, 0)

/-- The output paths `batch_convert` derives, as a closed form: the selected
entry names, each sent through `replace(".wav", ".pcap")` and joined to the
output directory. -/
def batchJobs (file_pattern : Option (List Char)) (output_dir : List Char)
    (names : List (List Char)) : List (List Char) :=
  (names.filter (wavSelect file_pattern)).map
    (fun n => pathJoin output_dir (strReplace n ".wav".data ".pcap".data))

/-- Closed form of `batch_convert`'s success count. -/
def batchSucc (src_ip dst_ip src_port dst_port payload_type : Nat) (packet_size : Int)
    (file_pattern : Option (List Char)) (files : List (List Char × WavFile)) : Nat :=
  (files.filter (fun nf => wavSelect file_pattern nf.1
    && convertFileOutcome src_ip dst_ip src_port dst_port payload_type packet_size nf.2)).length

/-- Closed form of `batch_convert`'s failure count. -/
def batchFail (src_ip dst_ip src_port dst_port payload_type : Nat) (packet_size : Int)
    (file_pattern : Option (List Char)) (files : List (List Char × WavFile)) : Nat :=
  (files.filter (fun nf => wavSelect file_pattern nf.1
    && !convertFileOutcome src_ip dst_ip src_port dst_port payload_type packet_size nf.2)).length

/-- Models the exit status of `main` (lines 183-254).  Directory mode runs
`batch_convert` and falls through to a normal exit (status 0) no matter how
many files failed; single-file mode calls `sys.exit(1)` exactly when the
conversion returned `False`.  The command-line surface carries only
addressing parameters, the payload type and the packet size: no option for
the initial sequence number, timestamp or SSRC exists. -/
def mainExitCode (src_ip dst_ip src_port dst_port payload_type : Nat) (packet_size : Int)
    (isDir : Bool) (file_pattern : Option (List Char)) (output_dir : List Char)
    (files : List (List Char × WavFile)) (singleFile : WavFile) : Nat :=
  if isDir then
    let _ := batch_convert src_ip dst_ip src_port dst_port payload_type packet_size
      file_pattern output_dir files
    0
  else if convertFileOutcome src_ip dst_ip src_port dst_port payload_type packet_size
      singleFile
  then 0
  else 1

theorem u16be_length (n : Nat) : (u16be n).length = 2 := rfl

theorem u32be_length (n : Nat) : (u32be n).length = 4 := rfl

theorem rtpHeaderBytes_length (pt s t ss : Nat) : (rtpHeaderBytes pt s t ss).length = 12 := rfl

theorem etherHeaderBytes_length : etherHeaderBytes.length = 14 := rfl

theorem build_header_init (pt seq ts ssrc : Nat) :
    (RTPPacket.init pt seq ts ssrc).build_header
      = if pt < 256 ∧ seq < 65536 ∧ ts < 4294967296 ∧ ssrc < 4294967296
        then some (rtpHeaderBytes pt seq ts ssrc) else none := by
  have h1 : ((2 : Nat) <<< 6 ||| 0 <<< 5 ||| 0 <<< 4 ||| 0) = 128 := by decide
  have h2 : ∀ n : Nat, ((0 : Nat) <<< 7 ||| n) = n := by
    intro n
    simp [Nat.zero_shiftLeft]
  by_cases hpt : pt < 256 <;> by_cases hs : seq < 65536 <;>
    by_cases ht : ts < 4294967296 <;> by_cases hss : ssrc < 4294967296 <;>
    simp [RTPPacket.build_header, RTPPacket.init, packB, packH, packI,
      rtpHeaderBytes, h1, h2, hpt, hs, ht, hss]

theorem buildFrame_some (sip dip sp dp : Nat) (pl : List Nat) :
    buildFrame sip dip sp dp pl
      = if sip < 4294967296 ∧ dip < 4294967296 ∧ sp < 65536 ∧ dp < 65536
            ∧ 28 + pl.length ≤ 65535
        then some (frameBytes sip dip sp dp pl) else none := rfl

theorem padChunk_length (audio_data : List Nat) (i packet_size : Nat) :
    (padChunk audio_data i packet_size).length = packet_size := by
  have hc : ((audio_data.drop i).take packet_size).length ≤ packet_size := by
    rw [List.length_take]
    exact Nat.min_le_left _ _
  simp only [padChunk]
  by_cases h : ((audio_data.drop i).take packet_size).length < packet_size
  · rw [if_pos h]
    simp only [List.length_append, List.length_replicate]
    omega
  · rw [if_neg h]
    omega

theorem layout_fields (E A1 A2 A3 A4 A5 A6 A7 A8 B1 B2 B3 B4 pl : List Nat)
    (hE : E.length = 14) (h1 : A1.length = 2) (h2 : A2.length = 2) (h3 : A3.length = 2)
    (h4 : A4.length = 2) (h5 : A5.length = 2) (h6 : A6.length = 2) (h7 : A7.length = 4)
    (h8 : A8.length = 4) (hB1 : B1.length = 2) (hB2 : B2.length = 2) (hB3 : B3.length = 2)
    (hB4 : B4.length = 2)
    (L : List Nat)
    (hL : L = E ++ (A1 ++ A2 ++ A3 ++ A4 ++ A5 ++ A6 ++ A7 ++ A8)
      ++ (B1 ++ B2 ++ B3 ++ B4) ++ pl) :
    L.drop 42 = pl ∧ (L.drop 16).take 2 = A2 ∧ (L.drop 38).take 2 = B3
      ∧ (L.drop 26).take 4 = A7 ∧ (L.drop 30).take 4 = A8 ∧ (L.drop 34).take 2 = B1
      ∧ (L.drop 36).take 2 = B2 := by
  subst hL
  refine ⟨?_, ?_, ?_, ?_, ?_, ?_, ?_⟩
  · rw [show E ++ (A1 ++ A2 ++ A3 ++ A4 ++ A5 ++ A6 ++ A7 ++ A8) ++ (B1 ++ B2 ++ B3 ++ B4) ++ pl
        = (E ++ (A1 ++ A2 ++ A3 ++ A4 ++ A5 ++ A6 ++ A7 ++ A8) ++ (B1 ++ B2 ++ B3 ++ B4)) ++ pl
      from by simp [List.append_assoc]]
    exact List.drop_left' (by simp [hE, h1, h2, h3, h4, h5, h6, h7, h8, hB1, hB2, hB3, hB4])
  · rw [show E ++ (A1 ++ A2 ++ A3 ++ A4 ++ A5 ++ A6 ++ A7 ++ A8) ++ (B1 ++ B2 ++ B3 ++ B4) ++ pl
        = (E ++ A1) ++ (A2 ++ (A3 ++ (A4 ++ (A5 ++ (A6 ++ (A7 ++ (A8 ++ (B1 ++ (B2 ++ (B3 ++ (B4 ++ pl)))))))))))
      from by simp [List.append_assoc]]
    rw [List.drop_left' (by simp [hE, h1])]
    exact List.take_left' h2
  · rw [show E ++ (A1 ++ A2 ++ A3 ++ A4 ++ A5 ++ A6 ++ A7 ++ A8) ++ (B1 ++ B2 ++ B3 ++ B4) ++ pl
        = (E ++ A1 ++ A2 ++ A3 ++ A4 ++ A5 ++ A6 ++ A7 ++ A8 ++ B1 ++ B2) ++ (B3 ++ (B4 ++ pl))
      from by simp [List.append_assoc]]
    rw [List.drop_left' (by simp [hE, h1, h2, h3, h4, h5, h6, h7, h8, hB1, hB2])]
    exact List.take_left' hB3
  · rw [show E ++ (A1 ++ A2 ++ A3 ++ A4 ++ A5 ++ A6 ++ A7 ++ A8) ++ (B1 ++ B2 ++ B3 ++ B4) ++ pl
        = (E ++ A1 ++ A2 ++ A3 ++ A4 ++ A5 ++ A6) ++ (A7 ++ (A8 ++ (B1 ++ (B2 ++ (B3 ++ (B4 ++ pl))))))
      from by simp [List.append_assoc]]
    rw [List.drop_left' (by simp [hE, h1, h2, h3, h4, h5, h6])]
    exact List.take_left' h7
  · rw [show E ++ (A1 ++ A2 ++ A3 ++ A4 ++ A5 ++ A6 ++ A7 ++ A8) ++ (B1 ++ B2 ++ B3 ++ B4) ++ pl
        = (E ++ A1 ++ A2 ++ A3 ++ A4 ++ A5 ++ A6 ++ A7) ++ (A8 ++ (B1 ++ (B2 ++ (B3 ++ (B4 ++ pl)))))
      from by simp [List.append_assoc]]
    rw [List.drop_left' (by simp [hE, h1, h2, h3, h4, h5, h6, h7])]
    exact List.take_left' h8
  · rw [show E ++ (A1 ++ A2 ++ A3 ++ A4 ++ A5 ++ A6 ++ A7 ++ A8) ++ (B1 ++ B2 ++ B3 ++ B4) ++ pl
        = (E ++ A1 ++ A2 ++ A3 ++ A4 ++ A5 ++ A6 ++ A7 ++ A8) ++ (B1 ++ (B2 ++ (B3 ++ (B4 ++ pl))))
      from by simp [List.append_assoc]]
    rw [List.drop_left' (by simp [hE, h1, h2, h3, h4, h5, h6, h7, h8])]
    exact List.take_left' hB1
  · rw [show E ++ (A1 ++ A2 ++ A3 ++ A4 ++ A5 ++ A6 ++ A7 ++ A8) ++ (B1 ++ B2 ++ B3 ++ B4) ++ pl
        = (E ++ A1 ++ A2 ++ A3 ++ A4 ++ A5 ++ A6 ++ A7 ++ A8 ++ B1) ++ (B2 ++ (B3 ++ (B4 ++ pl)))
      from by simp [List.append_assoc]]
    rw [List.drop_left' (by simp [hE, h1, h2, h3, h4, h5, h6, h7, h8, hB1])]
    exact List.take_left' hB2

theorem frameBytes_fields (sip dip sp dp : Nat) (pl : List Nat) :
    (frameBytes sip dip sp dp pl).drop 42 = pl
      ∧ ((frameBytes sip dip sp dp pl).drop 16).take 2 = u16be (28 + pl.length)
      ∧ ((frameBytes sip dip sp dp pl).drop 38).take 2 = u16be (8 + pl.length)
      ∧ ((frameBytes sip dip sp dp pl).drop 26).take 4 = u32be sip
      ∧ ((frameBytes sip dip sp dp pl).drop 30).take 4 = u32be dip
      ∧ ((frameBytes sip dip sp dp pl).drop 34).take 2 = u16be sp
      ∧ ((frameBytes sip dip sp dp pl).drop 36).take 2 = u16be dp := by
  exact layout_fields etherHeaderBytes [0x45, 0] (u16be (28 + pl.length)) (u16be 1)
    (u16be 0) [64, 17]
    (u16be (scapyChecksum (ipv4HeaderZeroCk sip dip (28 + pl.length))))
    (u32be sip) (u32be dip)
    (u16be sp) (u16be dp) (u16be (8 + pl.length))
    (u16be (udpChecksum sip dip sp dp pl)) pl
    rfl rfl rfl rfl rfl rfl rfl rfl rfl rfl rfl rfl rfl
    (frameBytes sip dip sp dp pl)
    (by simp [frameBytes, ipv4Header, udpHeader, List.append_assoc])

theorem rangeStepAux_length (step : Nat) (hstep : 0 < step) :
    ∀ (fuel start stop : Nat), stop - start ≤ fuel →
      (rangeStepAux fuel start stop step).length = (stop - start + step - 1) / step := by
  intro fuel
  induction fuel with
  | zero =>
    intro start stop hf
    have h0 : stop - start = 0 := Nat.le_zero.mp hf
    simp [rangeStepAux, h0, Nat.div_eq_of_lt (by omega : step - 1 < step)]
  | succ f ih =>
    intro start stop hf
    by_cases h : start < stop
    · rw [show rangeStepAux (f + 1) start stop step
          = start :: rangeStepAux f (start + step) stop step from by
        simp [rangeStepAux, h]]
      rw [List.length_cons, ih (start + step) stop (by omega)]
      by_cases hle : step ≤ stop - start
      · have e1 : stop - (start + step) + step - 1 = stop - start - 1 := by omega
        have e2 : stop - start + step - 1 = (stop - start - 1) + step := by omega
        rw [e1, e2, Nat.add_div_right _ hstep]
      · have e1 : stop - (start + step) = 0 := by omega
        have e2 : stop - start + step - 1 = (stop - start - 1) + step := by omega
        rw [e1, e2, Nat.add_div_right _ hstep,
          Nat.div_eq_of_lt (by omega : stop - start - 1 < step),
          Nat.div_eq_of_lt (by omega : 0 + step - 1 < step)]
    · have h0 : stop - start = 0 := by omega
      simp [rangeStepAux, h, h0, Nat.div_eq_of_lt (by omega : step - 1 < step)]

theorem rangeStepAux_getD (step : Nat) (hstep : 0 < step) :
    ∀ (fuel start stop k : Nat), stop - start ≤ fuel → k * step < stop - start →
      (rangeStepAux fuel start stop step).getD k 0 = start + k * step := by
  intro fuel
  induction fuel with
  | zero =>
    intro start stop k hf hk
    have h0 : stop - start = 0 := Nat.le_zero.mp hf
    rw [h0] at hk
    exact absurd hk (Nat.not_lt_zero _)
  | succ f ih =>
    intro start stop k hf hk
    have h : start < stop := by
      generalize hks : k * step = ks at hk
      omega
    rw [show rangeStepAux (f + 1) start stop step
        = start :: rangeStepAux f (start + step) stop step from by
      simp [rangeStepAux, h]]
    cases k with
    | zero => simp
    | succ k' =>
      rw [List.getD_cons_succ]
      have hmul : (k' + 1) * step = k' * step + step := Nat.succ_mul _ _
      have hk' : k' * step < stop - (start + step) := by
        generalize h1 : k' * step = a at hmul ⊢
        generalize h2 : (k' + 1) * step = b at hmul hk
        omega
      rw [ih (start + step) stop k' (by omega) hk']
      generalize h1 : k' * step = a at hmul ⊢
      generalize h2 : (k' + 1) * step = b at hmul ⊢
      omega

theorem rangeStep_length (stop step : Nat) (hstep : 0 < step) :
    (rangeStep 0 stop step).length = (stop + step - 1) / step := by
  unfold rangeStep
  rw [rangeStepAux_length step hstep (stop - 0) 0 stop (by omega)]
  simp

theorem rangeStep_getD (stop step k : Nat) (hstep : 0 < step) (hk : k * step < stop) :
    (rangeStep 0 stop step).getD k 0 = k * step := by
  unfold rangeStep
  rw [rangeStepAux_getD step hstep (stop - 0) 0 stop k (by omega) (by simpa using hk)]
  simp

theorem mul_lt_of_lt_ceil (P L k : Nat) (hP : 0 < P) (hk : k < (L + P - 1) / P) :
    k * P < L := by
  by_contra hnot
  push_neg at hnot
  have hmul : (k + 1) * P = k * P + P := Nat.succ_mul _ _
  have h1 : L + P - 1 < (k + 1) * P := by
    generalize h2 : k * P = a at hnot hmul
    generalize h3 : (k + 1) * P = b at hmul ⊢
    omega
  have h2 : (L + P - 1) / P < k + 1 := (Nat.div_lt_iff_lt_mul hP).mpr h1
  omega

theorem nextSeq_lt (seq : Nat) : nextSeq seq < 65536 := by
  unfold nextSeq
  split <;> omega

theorem nextSeq_eq_mod (seq : Nat) (h : seq < 65536) : nextSeq seq = (seq + 1) % 65536 := by
  unfold nextSeq
  split <;> omega

theorem packetLoop_some_spec (sip dip sp dp pt P : Nat) (audio : List Nat) :
    ∀ (starts : List Nat) (seq ts : Nat) (l : List PacketRec),
      seq < 65536 →
      packetLoop sip dip sp dp pt P audio starts seq ts = some l →
      l.length = starts.length ∧
        ∀ k, k < starts.length →
          l.getD k dummyRec
            = expectedRec sip dip sp dp pt P audio ((seq + k) % 65536) (ts + k * P)
                (starts.getD k 0) := by
  intro starts
  induction starts with
  | nil =>
    intro seq ts l _ h
    simp only [packetLoop] at h
    injection h with h1
    subst h1
    refine ⟨rfl, ?_⟩
    intro k hk
    simp at hk
  | cons i rest ih =>
    intro seq ts l hseq h
    simp only [packetLoop] at h
    split at h
    · exact absurd h (by simp)
    · rename_i hdr hbh
      split at h
      · exact absurd h (by simp)
      · rename_i frame hbf
        split at h
        · exact absurd h (by simp)
        · rename_i out hrec
          injection h with h1
          subst h1
          rw [build_header_init] at hbh
          split at hbh
          · rename_i hcond
            injection hbh with hh
            subst hh
            rw [buildFrame_some] at hbf
            split at hbf
            · rename_i hfcond
              injection hbf with hf
              subst hf
              obtain ⟨ihlen, ihpt⟩ := ih (nextSeq seq) (ts + P) out (nextSeq_lt seq) hrec
              constructor
              · simp [ihlen]
              · intro k hk
                cases k with
                | zero =>
                  have e1 : seq % 65536 = seq := Nat.mod_eq_of_lt hseq
                  simp only [List.getD_cons_zero, Nat.add_zero, Nat.zero_mul, e1]
                  rfl
                | succ k' =>
                  simp only [List.getD_cons_succ]
                  have hk' : k' < rest.length := by
                    simp only [List.length_cons] at hk
                    omega
                  have heq := ihpt k' hk'
                  have e1 : (nextSeq seq + k') % 65536 = (seq + (k' + 1)) % 65536 := by
                    rw [nextSeq_eq_mod seq hseq]
                    omega
                  have hmul : (k' + 1) * P = k' * P + P := Nat.succ_mul _ _
                  have e2 : ts + P + k' * P = ts + (k' + 1) * P := by
                    generalize h1 : k' * P = a at hmul ⊢
                    generalize h2 : (k' + 1) * P = b at hmul ⊢
                    omega
                  rw [← e1, ← e2]
                  exact heq
            · exact absurd hbf (by simp)
          · exact absurd hbh (by simp)

theorem packetLoop_total (sip dip sp dp pt P : Nat) (audio : List Nat)
    (hpt : pt < 256) (hsip : sip < 4294967296) (hdip : dip < 4294967296)
    (hsp : sp < 65536) (hdp : dp < 65536) (hP40 : 40 + P ≤ 65535) :
    ∀ (starts : List Nat) (seq ts : Nat), seq < 65536 →
      (∀ k, k < starts.length → ts + k * P < 4294967296) →
      (packetLoop sip dip sp dp pt P audio starts seq ts).isSome := by
  intro starts
  induction starts with
  | nil =>
    intro seq ts _ _
    simp [packetLoop]
  | cons i rest ih =>
    intro seq ts hseq hts
    have hts0 : ts < 4294967296 := by
      have h0 := hts 0 (by simp)
      simpa using h0
    have hbh : (RTPPacket.init pt seq ts defaultSSRC).build_header
        = some (rtpHeaderBytes pt seq ts defaultSSRC) := by
      rw [build_header_init]
      exact if_pos ⟨hpt, hseq, hts0, by norm_num [defaultSSRC]⟩
    have hlen : (rtpHeaderBytes pt seq ts defaultSSRC ++ padChunk audio i P).length
        = 12 + P := by
      simp [List.length_append, rtpHeaderBytes_length, padChunk_length]
    have hbf : buildFrame sip dip sp dp
          (rtpHeaderBytes pt seq ts defaultSSRC ++ padChunk audio i P)
        = some (frameBytes sip dip sp dp
          (rtpHeaderBytes pt seq ts defaultSSRC ++ padChunk audio i P)) := by
      rw [buildFrame_some]
      exact if_pos ⟨hsip, hdip, hsp, hdp, by rw [hlen]; omega⟩
    have hts' : ∀ k, k < rest.length → (ts + P) + k * P < 4294967296 := by
      intro k hk
      have h1 := hts (k + 1) (by simp only [List.length_cons]; omega)
      have hmul : (k + 1) * P = k * P + P := Nat.succ_mul _ _
      generalize hg : k * P = a at hmul ⊢
      generalize hg2 : (k + 1) * P = b at hmul h1
      omega
    have hrec := ih (nextSeq seq) (ts + P) (nextSeq_lt seq) hts'
    simp only [packetLoop, hbh, hbf]
    cases hrc : packetLoop sip dip sp dp pt P audio rest (nextSeq seq) (ts + P) with
    | none => rw [hrc] at hrec; simp at hrec
    | some out => simp

theorem pyRange_pos (L P : Nat) (hP : 0 < P) :
    pyRange L (P : Int) = some (rangeStep 0 L P) := by
  unfold pyRange
  rw [if_neg (by omega), if_neg (by omega)]
  have ht : ((P : Int)).toNat = P := by omega
  rw [ht]

theorem conv_some_starts (sip dip sp dp pt : Nat) (P : Int) (audio : List Nat)
    (recs : List PacketRec)
    (h : convert_wav_to_pcap sip dip sp dp pt P audio = some recs) :
    ∃ starts, pyRange audio.length P = some starts ∧
      packetLoop sip dip sp dp pt P.toNat audio starts 1 0 = some recs := by
  unfold convert_wav_to_pcap at h
  cases hpy : pyRange audio.length P with
  | none => rw [hpy] at h; exact absurd h (by simp)
  | some starts =>
    rw [hpy] at h
    exact ⟨starts, rfl, h⟩

theorem conv_pointwise (sip dip sp dp pt : Nat) (P : Int) (audio : List Nat)
    (recs : List PacketRec)
    (h : convert_wav_to_pcap sip dip sp dp pt P audio = some recs) :
    ∀ k, k < recs.length →
      recs.getD k dummyRec
        = expectedRec sip dip sp dp pt P.toNat audio ((1 + k) % 65536) (k * P.toNat)
            (k * P.toNat) := by
  obtain ⟨starts, hpy, hloop⟩ := conv_some_starts sip dip sp dp pt P audio recs h
  obtain ⟨hlen, hptw⟩ := packetLoop_some_spec sip dip sp dp pt P.toNat audio starts 1 0
    recs (by omega) hloop
  intro k hk
  unfold pyRange at hpy
  by_cases h0 : P = 0
  · rw [if_pos h0] at hpy
    exact absurd hpy (by simp)
  · rw [if_neg h0] at hpy
    by_cases hneg : P < 0
    · rw [if_pos hneg] at hpy
      injection hpy with e
      subst e
      rw [hlen] at hk
      simp at hk
    · rw [if_neg hneg] at hpy
      injection hpy with e
      subst e
      have hstep : 0 < P.toNat := by omega
      have hkc : k < (audio.length + P.toNat - 1) / P.toNat := by
        rw [hlen, rangeStep_length _ _ hstep] at hk
        exact hk
      have hks : k * P.toNat < audio.length := mul_lt_of_lt_ceil _ _ _ hstep hkc
      have hgd : (rangeStep 0 audio.length P.toNat).getD k 0 = k * P.toNat :=
        rangeStep_getD _ _ _ hstep hks
      have hk2 : k < (rangeStep 0 audio.length P.toNat).length := by
        rw [← hlen]
        exact hk
      have := hptw k hk2
      rw [hgd, Nat.zero_add] at this
      exact this

theorem conv_length (sip dip sp dp pt P : Nat) (audio : List Nat) (recs : List PacketRec)
    (hP : 0 < P)
    (h : convert_wav_to_pcap sip dip sp dp pt (P : Int) audio = some recs) :
    recs.length = (audio.length + P - 1) / P := by
  obtain ⟨starts, hpy, hloop⟩ := conv_some_starts sip dip sp dp pt (P : Int) audio recs h
  rw [pyRange_pos audio.length P hP] at hpy
  injection hpy with e
  subst e
  have ht : ((P : Int)).toNat = P := by omega
  rw [ht] at hloop
  rw [(packetLoop_some_spec sip dip sp dp pt P audio _ 1 0 recs (by omega) hloop).1,
    rangeStep_length _ _ hP]

theorem conv_total (sip dip sp dp pt P : Nat) (audio : List Nat)
    (hP : 0 < P) (hP40 : 40 + P ≤ 65535) (hpt : pt < 256)
    (hsip : sip < 4294967296) (hdip : dip < 4294967296)
    (hsp : sp < 65536) (hdp : dp < 65536) (hL : audio.length < 4294967296) :
    ∃ recs, convert_wav_to_pcap sip dip sp dp pt (P : Int) audio = some recs
      ∧ recs.length = (audio.length + P - 1) / P := by
  have ht : ((P : Int)).toNat = P := by omega
  have hts : ∀ k, k < (rangeStep 0 audio.length P).length → 0 + k * P < 4294967296 := by
    intro k hk
    rw [rangeStep_length _ _ hP] at hk
    have h2 := mul_lt_of_lt_ceil P audio.length k hP hk
    generalize hg : k * P = a at h2 ⊢
    omega
  have htot := packetLoop_total sip dip sp dp pt P audio hpt hsip hdip hsp hdp hP40
    (rangeStep 0 audio.length P) 1 0 (by omega) hts
  obtain ⟨recs, hrecs⟩ := Option.isSome_iff_exists.mp htot
  refine ⟨recs, ?_, ?_⟩
  · unfold convert_wav_to_pcap
    rw [pyRange_pos audio.length P hP, ht]
    exact hrecs
  · rw [(packetLoop_some_spec sip dip sp dp pt P audio _ 1 0 recs (by omega) hrecs).1,
      rangeStep_length _ _ hP]

theorem padChunk_full (audio : List Nat) (i P : Nat) (h : i + P ≤ audio.length) :
    padChunk audio i P = (audio.drop i).take P
      ∧ ((audio.drop i).take P).length = P := by
  have hlen : ((audio.drop i).take P).length = P := by
    rw [List.length_take, List.length_drop, Nat.min_def]
    split <;> omega
  constructor
  · simp only [padChunk]
    rw [if_neg (by omega)]
  · exact hlen

theorem padChunk_partial (audio : List Nat) (i P : Nat) (h1 : i ≤ audio.length)
    (h2 : audio.length < i + P) :
    padChunk audio i P = audio.drop i ++ List.replicate (P - (audio.length - i)) 0x7f
      ∧ (audio.drop i).length = audio.length - i := by
  have hdl : (audio.drop i).length = audio.length - i := List.length_drop _ _
  have htake : (audio.drop i).take P = audio.drop i :=
    List.take_of_length_le (by rw [hdl]; omega)
  refine ⟨?_, hdl⟩
  simp only [padChunk]
  rw [htake, if_pos (by rw [hdl]; omega), hdl]

theorem getD_map_frame : ∀ (l : List PacketRec) (k : Nat), k < l.length →
    (l.map PacketRec.frame).getD k [] = (l.getD k dummyRec).frame := by
  intro l
  induction l with
  | nil =>
    intro k hk
    simp at hk
  | cons a t ih =>
    intro k hk
    cases k with
    | zero => simp
    | succ k' =>
      simp only [List.map_cons, List.getD_cons_succ]
      exact ih k' (by simp only [List.length_cons] at hk; omega)

/-- C4: parsing the 12 bytes produced by `build_header` according to the
documented big-endian layout recovers exactly the payload type, sequence
number, timestamp and SSRC used to build the packet, together with the fixed
version 2 and zero padding/extension/CSRC-count/marker bits. -/
theorem claim_C4_header_roundtrip (pt seq ts ssrc : Nat) (hpt : pt < 128)
    (hseq : seq < 65536) (hts : ts < 4294967296) (hssrc : ssrc < 4294967296) :
    ((RTPPacket.init pt seq ts ssrc).build_header).map parseHeader
      = some (RTPPacket.init pt seq ts ssrc) := by
  rw [build_header_init, if_pos ⟨by omega, hseq, hts, hssrc⟩]
  show some (parseHeader (rtpHeaderBytes pt seq ts ssrc)) = some (RTPPacket.init pt seq ts ssrc)
  congr 1
  have g0 : (rtpHeaderBytes pt seq ts ssrc).getD 0 0 = 128 := rfl
  have g1 : (rtpHeaderBytes pt seq ts ssrc).getD 1 0 = pt := rfl
  have g2 : (rtpHeaderBytes pt seq ts ssrc).getD 2 0 = seq / 256 % 256 := rfl
  have g3 : (rtpHeaderBytes pt seq ts ssrc).getD 3 0 = seq % 256 := rfl
  have g4 : (rtpHeaderBytes pt seq ts ssrc).getD 4 0 = ts / 16777216 % 256 := rfl
  have g5 : (rtpHeaderBytes pt seq ts ssrc).getD 5 0 = ts / 65536 % 256 := rfl
  have g6 : (rtpHeaderBytes pt seq ts ssrc).getD 6 0 = ts / 256 % 256 := rfl
  have g7 : (rtpHeaderBytes pt seq ts ssrc).getD 7 0 = ts % 256 := rfl
  have g8 : (rtpHeaderBytes pt seq ts ssrc).getD 8 0 = ssrc / 16777216 % 256 := rfl
  have g9 : (rtpHeaderBytes pt seq ts ssrc).getD 9 0 = ssrc / 65536 % 256 := rfl
  have g10 : (rtpHeaderBytes pt seq ts ssrc).getD 10 0 = ssrc / 256 % 256 := rfl
  have g11 : (rtpHeaderBytes pt seq ts ssrc).getD 11 0 = ssrc % 256 := rfl
  simp only [parseHeader, g0, g1, g2, g3, g4, g5, g6, g7, g8, g9, g10, g11,
    RTPPacket.init, RTPPacket.mk.injEq, true_and, and_true]
  omega

/-- Witness for C4 at a concrete in-range header. -/
theorem claim_C4_header_roundtrip_witness :
    ((RTPPacket.init 96 65535 4294967295 19088743).build_header).map parseHeader
      = some (RTPPacket.init 96 65535 4294967295 19088743) :=
  claim_C4_header_roundtrip 96 65535 4294967295 19088743 (by omega) (by omega) (by omega)
    (by omega)

/-- C5 (code behavior at the failing input): the script never rejects a
non-positive packet size with a `ConfigError` (no such check or exception
class exists).  With `packet_size = -1` the chunk loop runs zero times, the
conversion succeeds and an empty capture is written (`some []`, boolean
result `true`); with `packet_size = 0` the `range()` call raises a
`ValueError` that the generic handler turns into a plain `False`. -/
theorem claim_C5_code_behavior :
    convert_wav_to_pcap 1 2 3 4 0 (-1 : Int) [0] = some []
      ∧ convertFileOutcome 1 2 3 4 0 (-1 : Int)
          { present := true, decodes := true, audio_bytes := [0], writeOk := true } = true
      ∧ convert_wav_to_pcap 1 2 3 4 0 (0 : Int) [0] = none :=
  ⟨rfl, rfl, rfl⟩

/-- C3: for every emitted packet index k (0-based), the sequence number is
(1 + k) mod 65536 — the initial sequence number is 1 — and the timestamp is
0 + k * packet_size — the initial timestamp is 0. -/
theorem claim_C3_seq_timestamp (sip dip sp dp pt P : Nat) (audio : List Nat)
    (recs : List PacketRec) (hP : 0 < P)
    (h : convert_wav_to_pcap sip dip sp dp pt (P : Int) audio = some recs) :
    ∀ k, k < recs.length →
      (recs.getD k dummyRec).rtp.seq_num = (1 + k) % 65536
        ∧ (recs.getD k dummyRec).rtp.timestamp = 0 + k * P := by
  intro k hk
  have hpw := conv_pointwise sip dip sp dp pt (P : Int) audio recs h k hk
  have ht : ((P : Int)).toNat = P := by omega
  rw [ht] at hpw
  rw [hpw]
  exact ⟨rfl, by simp [expectedRec, RTPPacket.init]⟩

/-- Witness for C3: three audio bytes at packet size 2 give two packets; the
packet of index 1 has sequence number 2 and timestamp 2. -/
theorem claim_C3_seq_timestamp_witness :
    (((convert_wav_to_pcap 1 2 3 4 0 ((2 : Nat) : Int) [9, 9, 9]).getD []).getD 1
        dummyRec).rtp.seq_num = (1 + 1) % 65536
      ∧ (((convert_wav_to_pcap 1 2 3 4 0 ((2 : Nat) : Int) [9, 9, 9]).getD []).getD 1
        dummyRec).rtp.timestamp = 0 + 1 * 2 :=
  claim_C3_seq_timestamp 1 2 3 4 0 2 [9, 9, 9]
    ((convert_wav_to_pcap 1 2 3 4 0 ((2 : Nat) : Int) [9, 9, 9]).getD []) (by omega)
    (by rfl) 1 (by decide)

/-- C9: all packets produced for one input carry the same SSRC. -/
theorem claim_C9_constant_ssrc (sip dip sp dp pt : Nat) (P : Int) (audio : List Nat)
    (recs : List PacketRec)
    (h : convert_wav_to_pcap sip dip sp dp pt P audio = some recs) :
    ∀ i j, i < recs.length → j < recs.length →
      (recs.getD i dummyRec).rtp.ssrc = (recs.getD j dummyRec).rtp.ssrc := by
  intro i j hi hj
  rw [conv_pointwise sip dip sp dp pt P audio recs h i hi,
    conv_pointwise sip dip sp dp pt P audio recs h j hj]
  rfl

/-- Witness for C9 at a concrete two-packet stream. -/
theorem claim_C9_constant_ssrc_witness :
    (((convert_wav_to_pcap 5 6 7 8 0 ((1 : Nat) : Int) [1, 2]).getD []).getD 0
        dummyRec).rtp.ssrc
      = (((convert_wav_to_pcap 5 6 7 8 0 ((1 : Nat) : Int) [1, 2]).getD []).getD 1
        dummyRec).rtp.ssrc :=
  claim_C9_constant_ssrc 5 6 7 8 0 ((1 : Nat) : Int) [1, 2]
    ((convert_wav_to_pcap 5 6 7 8 0 ((1 : Nat) : Int) [1, 2]).getD []) (by rfl) 0 1
    (by decide) (by decide)

/-- C10: whatever addressing parameters, payload type, packet size and audio
the caller passes — these are the only parameters `convert_wav_to_pcap` and
the command line expose — the first emitted packet always has sequence
number 1, timestamp 0 and SSRC 0xABCDEF01; no argument can change them. -/
theorem claim_C10_fixed_initials (sip dip sp dp pt : Nat) (P : Int) (audio : List Nat)
    (recs : List PacketRec)
    (h : convert_wav_to_pcap sip dip sp dp pt P audio = some recs)
    (hne : 0 < recs.length) :
    (recs.getD 0 dummyRec).rtp.seq_num = 1 ∧ (recs.getD 0 dummyRec).rtp.timestamp = 0
      ∧ (recs.getD 0 dummyRec).rtp.ssrc = 0xABCDEF01 := by
  rw [conv_pointwise sip dip sp dp pt P audio recs h 0 hne]
  exact ⟨rfl, by simp [expectedRec, RTPPacket.init], rfl⟩

/-- Witness for C10 at a concrete one-packet stream. -/
theorem claim_C10_fixed_initials_witness :
    (((convert_wav_to_pcap 9 9 9 9 8 (5 : Int) [1]).getD []).getD 0 dummyRec).rtp.seq_num = 1
      ∧ (((convert_wav_to_pcap 9 9 9 9 8 (5 : Int) [1]).getD []).getD 0
        dummyRec).rtp.timestamp = 0
      ∧ (((convert_wav_to_pcap 9 9 9 9 8 (5 : Int) [1]).getD []).getD 0
        dummyRec).rtp.ssrc = 0xABCDEF01 :=
  claim_C10_fixed_initials 9 9 9 9 8 (5 : Int) [1]
    ((convert_wav_to_pcap 9 9 9 9 8 (5 : Int) [1]).getD []) (by rfl) (by decide)

/-- C1 (amended): for audio of any length below 2^32 (the WAV container's
32-bit size fields cannot produce more) and any packet size P with
0 < P ≤ 65495 (so the IPv4 total length 40 + P fits its 16-bit field), with
valid addressing parameters, the conversion succeeds, produces exactly
ceil(L / P) packets (zero when L = 0), and the written capture holds exactly
one record per packet, in production order. -/
theorem claim_C1_amended (sip dip sp dp pt P : Nat) (audio : List Nat)
    (hP : 0 < P) (hP40 : 40 + P ≤ 65535) (hpt : pt < 256)
    (hsip : sip < 4294967296) (hdip : dip < 4294967296)
    (hsp : sp < 65536) (hdp : dp < 65536) (hL : audio.length < 4294967296) :
    ∃ recs, convert_wav_to_pcap sip dip sp dp pt (P : Int) audio = some recs
      ∧ recs.length = (audio.length + P - 1) / P
      ∧ (wrpcapRecords recs).length = (audio.length + P - 1) / P
      ∧ ∀ k, k < recs.length →
          (wrpcapRecords recs).getD k [] = (recs.getD k dummyRec).frame := by
  obtain ⟨recs, hsome, hlen⟩ :=
    conv_total sip dip sp dp pt P audio hP hP40 hpt hsip hdip hsp hdp hL
  refine ⟨recs, hsome, hlen, ?_, ?_⟩
  · unfold wrpcapRecords
    rw [List.length_map]
    exact hlen
  · intro k hk
    exact getD_map_frame recs k hk

/-- Witness for C1 (amended) at a concrete three-byte input with the default
packet size 160: one (padded) packet, one capture record. -/
theorem claim_C1_amended_witness :
    ∃ recs, convert_wav_to_pcap 1 2 3 4 0 ((160 : Nat) : Int) [1, 2, 3] = some recs
      ∧ recs.length = (([1, 2, 3] : List Nat).length + 160 - 1) / 160
      ∧ (wrpcapRecords recs).length = (([1, 2, 3] : List Nat).length + 160 - 1) / 160
      ∧ ∀ k, k < recs.length →
          (wrpcapRecords recs).getD k [] = (recs.getD k dummyRec).frame :=
  claim_C1_amended 1 2 3 4 0 160 [1, 2, 3] (by omega) (by omega) (by omega) (by omega)
    (by omega) (by omega) (by omega) (by decide)

/-- Counterexample to C1 as stated: for packet size 65496 (> 65495) and a
one-byte input the claim demands one packet and a one-record capture, but
the IPv4 total-length field 40 + 65496 overflows 16 bits, scapy's
serialization raises, and the conversion fails with no capture written. -/
theorem packetLoop_cons_none (sip dip sp dp pt P : Nat) (audio : List Nat) (i : Nat)
    (rest : List Nat) (seq ts : Nat) (hP : 65535 < 40 + P) :
    packetLoop sip dip sp dp pt P audio (i :: rest) seq ts = none := by
  rcases hbh : (RTPPacket.init pt seq ts defaultSSRC).build_header with _ | hdr
  · simp only [packetLoop, hbh]
  · have hlen12 : hdr.length = 12 := by
      rw [build_header_init] at hbh
      split at hbh
      · injection hbh with e
        subst e
        exact rtpHeaderBytes_length pt seq ts defaultSSRC
      · exact absurd hbh (by simp)
    have hbf : buildFrame sip dip sp dp (hdr ++ padChunk audio i P) = none := by
      rw [buildFrame_some]
      apply if_neg
      intro hc
      obtain ⟨_, _, _, _, h5⟩ := hc
      rw [List.length_append, hlen12, padChunk_length] at h5
      omega
    simp only [packetLoop, hbh, hbf]

theorem claim_C1_counterexample :
    convert_wav_to_pcap 1 2 3 4 0 (65496 : Int) [0] = none := by
  have hloop := packetLoop_cons_none 1 2 3 4 0 65496 [0] 0 [] 1 0 (by omega)
  have hpy2 : pyRange (([0] : List Nat).length) (65496 : Int) = some [0] := by
    unfold pyRange
    rw [if_neg (by omega), if_neg (by omega)]
    rfl
  unfold convert_wav_to_pcap
  rw [hpy2]
  show packetLoop 1 2 3 4 0 ((65496 : Int)).toNat [0] [0] 1 0 = none
  rw [show (((65496 : Int)).toNat) = 65496 from rfl]
  exact hloop

/-- C2: a produced packet is padded only when L mod P is nonzero, and then
only the last one: every packet that is not the last (and the last one too
when P divides L) carries the untouched P-byte slice of the audio, while for
a nonzero remainder the last packet is the trailing L mod P audio bytes
followed by P - (L mod P) silence bytes 0x7f. -/
theorem claim_C2_padding (sip dip sp dp pt P : Nat) (audio : List Nat)
    (recs : List PacketRec) (hP : 0 < P)
    (h : convert_wav_to_pcap sip dip sp dp pt (P : Int) audio = some recs) :
    ∀ k, k < recs.length →
      ((k + 1 < recs.length ∨ audio.length % P = 0) →
          (recs.getD k dummyRec).chunk = (audio.drop (k * P)).take P
            ∧ ((audio.drop (k * P)).take P).length = P)
        ∧ ((k + 1 = recs.length ∧ audio.length % P ≠ 0) →
          (recs.getD k dummyRec).chunk
              = audio.drop (k * P) ++ List.replicate (P - audio.length % P) 0x7f
            ∧ (audio.drop (k * P)).length = audio.length % P) := by
  intro k hk
  have ht : ((P : Int)).toNat = P := by omega
  have hpw := conv_pointwise sip dip sp dp pt (P : Int) audio recs h k hk
  rw [ht] at hpw
  have hlen := conv_length sip dip sp dp pt P audio recs hP h
  have hchunk : (recs.getD k dummyRec).chunk = padChunk audio (k * P) P := by
    rw [hpw]
    rfl
  have hdm : P * (audio.length / P) + audio.length % P = audio.length :=
    Nat.div_add_mod audio.length P
  have hrlt : audio.length % P < P := Nat.mod_lt _ hP
  constructor
  · intro hcase
    have hfull : k * P + P ≤ audio.length := by
      rcases hcase with hlt | hmod0
      · have h1 : (k + 1) * P < audio.length := by
          apply mul_lt_of_lt_ceil P audio.length (k + 1) hP
          rw [← hlen]
          exact hlt
        have hmul : (k + 1) * P = k * P + P := Nat.succ_mul _ _
        generalize hg1 : k * P = a at hmul ⊢
        generalize hg2 : (k + 1) * P = b at hmul h1
        omega
      · have hceil : (audio.length + P - 1) / P = audio.length / P := by
          have e : audio.length + P - 1 = P * (audio.length / P) + (P - 1) := by
            generalize hg : P * (audio.length / P) = t at hdm ⊢
            omega
          rw [e, Nat.mul_add_div hP, Nat.div_eq_of_lt (by omega : P - 1 < P)]
          omega
        have hkq : k < audio.length / P := by
          rw [hlen, hceil] at hk
          exact hk
        have h1 : (k + 1) * P ≤ (audio.length / P) * P :=
          Nat.mul_le_mul_right _ (by omega)
        have h2 : (audio.length / P) * P ≤ audio.length := by
          generalize hg : P * (audio.length / P) = t at hdm
          rw [Nat.mul_comm, hg]
          omega
        have hmul : (k + 1) * P = k * P + P := Nat.succ_mul _ _
        generalize hg1 : k * P = a at hmul ⊢
        generalize hg2 : (k + 1) * P = b at hmul h1
        generalize hg3 : (audio.length / P) * P = c at h1 h2
        omega
    obtain ⟨hc1, hc2⟩ := padChunk_full audio (k * P) P hfull
    exact ⟨by rw [hchunk, hc1], hc2⟩
  · intro hlast
    obtain ⟨hk1, hmodne⟩ := hlast
    have hceil2 : (audio.length + P - 1) / P = audio.length / P + 1 := by
      have e : audio.length + P - 1
          = P * (audio.length / P) + (audio.length % P + P - 1) := by
        generalize hg : P * (audio.length / P) = t at hdm ⊢
        omega
      rw [e, Nat.mul_add_div hP,
        show audio.length % P + P - 1 = (audio.length % P - 1) + P from by omega,
        Nat.add_div_right _ hP,
        Nat.div_eq_of_lt (by omega : audio.length % P - 1 < P)]
    have hkq : k = audio.length / P := by
      rw [hlen, hceil2] at hk1
      omega
    have hiq : k * P = P * (audio.length / P) := by
      rw [hkq, Nat.mul_comm]
    have hile : k * P ≤ audio.length := by
      rw [hiq]
      generalize hg : P * (audio.length / P) = t at hdm ⊢
      omega
    have hlt2 : audio.length < k * P + P := by
      rw [hiq]
      generalize hg : P * (audio.length / P) = t at hdm ⊢
      omega
    obtain ⟨hc1, hc2⟩ := padChunk_partial audio (k * P) P hile hlt2
    have hrem : audio.length - k * P = audio.length % P := by
      rw [hiq]
      generalize hg : P * (audio.length / P) = t at hdm ⊢
      omega
    refine ⟨?_, by rw [hc2, hrem]⟩
    rw [hchunk, hc1, hrem]

/-- Witness for C2: six audio bytes at packet size 4 give packets [1,2,3,4]
(a full, untouched slice) and [5,6,0x7f,0x7f] (two trailing bytes plus two
silence bytes). -/
theorem claim_C2_padding_witness :
    ((((convert_wav_to_pcap 1 2 3 4 0 ((4 : Nat) : Int) [1, 2, 3, 4, 5, 6]).getD []).getD 0
          dummyRec).chunk
        = (([1, 2, 3, 4, 5, 6] : List Nat).drop (0 * 4)).take 4
      ∧ ((([1, 2, 3, 4, 5, 6] : List Nat).drop (0 * 4)).take 4).length = 4)
      ∧ ((((convert_wav_to_pcap 1 2 3 4 0 ((4 : Nat) : Int) [1, 2, 3, 4, 5, 6]).getD []).getD 1
          dummyRec).chunk
        = ([1, 2, 3, 4, 5, 6] : List Nat).drop (1 * 4)
            ++ List.replicate (4 - ([1, 2, 3, 4, 5, 6] : List Nat).length % 4) 0x7f
      ∧ (([1, 2, 3, 4, 5, 6] : List Nat).drop (1 * 4)).length
        = ([1, 2, 3, 4, 5, 6] : List Nat).length % 4) :=
  ⟨(claim_C2_padding 1 2 3 4 0 4 [1, 2, 3, 4, 5, 6]
      ((convert_wav_to_pcap 1 2 3 4 0 ((4 : Nat) : Int) [1, 2, 3, 4, 5, 6]).getD [])
      (by omega) (by rfl) 0 (by decide)).1 (by decide),
    (claim_C2_padding 1 2 3 4 0 4 [1, 2, 3, 4, 5, 6]
      ((convert_wav_to_pcap 1 2 3 4 0 ((4 : Nat) : Int) [1, 2, 3, 4, 5, 6]).getD [])
      (by omega) (by rfl) 1 (by decide)).2 (by decide)⟩

/-- C7: every produced frame is the Ethernet header, then the IPv4 header
with the caller's addresses, then the UDP header with the caller's ports,
then — byte for byte — the 12-byte RTP header concatenated with the chunk;
the IP total-length and UDP length fields serialized at their documented
offsets equal the values computed from the actual payload length. -/
theorem claim_C7_encapsulation (sip dip sp dp pt : Nat) (P : Int) (audio : List Nat)
    (recs : List PacketRec)
    (h : convert_wav_to_pcap sip dip sp dp pt P audio = some recs) :
    ∀ k, k < recs.length →
      (recs.getD k dummyRec).header.length = 12
        ∧ (recs.getD k dummyRec).frame
          = etherHeaderBytes
            ++ ipv4Header sip dip
              (28 + ((recs.getD k dummyRec).header ++ (recs.getD k dummyRec).chunk).length)
            ++ udpHeader sip dip sp dp
              ((recs.getD k dummyRec).header ++ (recs.getD k dummyRec).chunk)
            ++ ((recs.getD k dummyRec).header ++ (recs.getD k dummyRec).chunk)
        ∧ (recs.getD k dummyRec).frame.drop 42
          = (recs.getD k dummyRec).header ++ (recs.getD k dummyRec).chunk
        ∧ ((recs.getD k dummyRec).frame.drop 16).take 2
          = u16be (28 + ((recs.getD k dummyRec).header ++ (recs.getD k dummyRec).chunk).length)
        ∧ ((recs.getD k dummyRec).frame.drop 38).take 2
          = u16be (8 + ((recs.getD k dummyRec).header ++ (recs.getD k dummyRec).chunk).length)
        ∧ ((recs.getD k dummyRec).frame.drop 26).take 4 = u32be sip
        ∧ ((recs.getD k dummyRec).frame.drop 30).take 4 = u32be dip
        ∧ ((recs.getD k dummyRec).frame.drop 34).take 2 = u16be sp
        ∧ ((recs.getD k dummyRec).frame.drop 36).take 2 = u16be dp := by
  intro k hk
  rw [conv_pointwise sip dip sp dp pt P audio recs h k hk]
  obtain ⟨f1, f2, f3, f4, f5, f6, f7⟩ := frameBytes_fields sip dip sp dp
    (rtpHeaderBytes pt ((1 + k) % 65536) (k * P.toNat) defaultSSRC
      ++ padChunk audio (k * P.toNat) P.toNat)
  exact ⟨rfl, rfl, f1, f2, f3, f4, f5, f6, f7⟩

theorem length_filter_split {α : Type} (p q : α → Bool) :
    ∀ l : List α,
      (l.filter fun x => p x && q x).length + (l.filter fun x => p x && !q x).length
        = (l.filter p).length := by
  intro l
  induction l with
  | nil => simp
  | cons a t ih =>
    by_cases hp : p a
    · by_cases hq : q a
      · simp [List.filter_cons, hp, hq]
        omega
      · simp [List.filter_cons, hp, hq]
        omega
    · simp [List.filter_cons, hp]
      omega

theorem batch_convert_fold (sip dip sp dp pt : Nat) (P : Int) (pat : Option (List Char))
    (out : List Char) :
    ∀ (files : List (List Char × WavFile)) (acc : List (List Char) × Nat × Nat),
      files.foldl (batchStep sip dip sp dp pt P pat out) acc
        = (acc.1 ++ batchJobs pat out (files.map Prod.fst),
           acc.2.1 + batchSucc sip dip sp dp pt P pat files,
           acc.2.2 + batchFail sip dip sp dp pt P pat files) := by
  intro files
  induction files with
  | nil =>
    intro acc
    simp [batchJobs, batchSucc, batchFail]
  | cons nf t ih =>
    intro acc
    rw [List.foldl_cons, ih]
    cases hsel : wavSelect pat nf.1 with
    | false =>
      simp [batchStep, batchJobs, batchSucc, batchFail, hsel, List.filter_cons]
    | true =>
      cases hok : convertFileOutcome sip dip sp dp pt P nf.2 with
      | false =>
        simp [batchStep, batchJobs, batchSucc, batchFail, hsel, hok, List.filter_cons,
          List.append_assoc]
        all_goals omega
      | true =>
        simp [batchStep, batchJobs, batchSucc, batchFail, hsel, hok, List.filter_cons,
          List.append_assoc]
        all_goals omega

theorem strContains_iff (pat : List Char) :
    ∀ s : List Char, strContains s pat = true ↔ pat <:+: s := by
  intro s
  induction s with
  | nil => simp [strContains, List.isPrefixOf_iff_prefix]
  | cons c t ih => simp [strContains, List.isPrefixOf_iff_prefix, ih, List.infix_cons_iff]

theorem strReplaceAux_nil (pat rep : List Char) :
    ∀ fuel, strReplaceAux pat rep fuel [] = [] := by
  intro fuel
  cases fuel <;> rfl

theorem strReplaceAux_append (pat rep : List Char) :
    ∀ (s t : List Char) (fuel : Nat), (s ++ t).length ≤ fuel →
      (∀ i, i < s.length → pat.isPrefixOf ((s ++ t).drop i) = false) →
      strReplaceAux pat rep fuel (s ++ t)
        = s ++ strReplaceAux pat rep (fuel - s.length) t := by
  intro s
  induction s with
  | nil =>
    intro t fuel hf hocc
    simp
  | cons c s' ih =>
    intro t fuel hf hocc
    cases fuel with
    | zero =>
      simp only [List.length_append, List.length_cons] at hf
      omega
    | succ f =>
      have h0 : pat.isPrefixOf (c :: (s' ++ t)) = false := by
        have h1 := hocc 0 (by simp)
        simpa using h1
      have hstep : strReplaceAux pat rep (f + 1) ((c :: s') ++ t)
          = c :: strReplaceAux pat rep f (s' ++ t) := by
        show strReplaceAux pat rep (f + 1) (c :: (s' ++ t))
          = c :: strReplaceAux pat rep f (s' ++ t)
        simp [strReplaceAux, h0]
      rw [hstep]
      have hf' : (s' ++ t).length ≤ f := by
        simp only [List.length_append, List.length_cons] at hf ⊢
        omega
      have hocc' : ∀ i, i < s'.length → pat.isPrefixOf ((s' ++ t).drop i) = false := by
        intro i hi
        have h2 := hocc (i + 1) (by simp only [List.length_cons]; omega)
        simpa using h2
      rw [ih t f hf' hocc']
      have hidx : f + 1 - (c :: s').length = f - s'.length := by
        simp only [List.length_cons]
        omega
      rw [hidx]
      rfl

/-- C6: every per-file error becomes a boolean failure (missing input,
decode failure, packet-construction failure and write failure all yield
`false`, never an escaping exception); the batch tally accounts for every
selected file, splitting it exactly into successes and failures; directory
mode always exits 0; single-file mode exits nonzero exactly when the
conversion failed. -/
theorem claim_C6_error_policy :
    (∀ (sip dip sp dp pt : Nat) (P : Int) (f : WavFile),
        convertFileOutcome sip dip sp dp pt P f
          = (f.present && (f.decodes
              && ((convert_wav_to_pcap sip dip sp dp pt P f.audio_bytes).isSome
                && f.writeOk))))
      ∧ (∀ (sip dip sp dp pt : Nat) (P : Int) (pat : Option (List Char))
            (out : List Char) (files : List (List Char × WavFile)),
          (batch_convert sip dip sp dp pt P pat out files).2.1
              + (batch_convert sip dip sp dp pt P pat out files).2.2
            = (files.filter (fun nf => wavSelect pat nf.1)).length)
      ∧ (∀ (sip dip sp dp pt : Nat) (P : Int) (pat : Option (List Char))
            (out : List Char) (files : List (List Char × WavFile)) (singleFile : WavFile),
          mainExitCode sip dip sp dp pt P true pat out files singleFile = 0)
      ∧ (∀ (sip dip sp dp pt : Nat) (P : Int) (pat : Option (List Char))
            (out : List Char) (files : List (List Char × WavFile)) (singleFile : WavFile),
          (mainExitCode sip dip sp dp pt P false pat out files singleFile = 0
            ↔ convertFileOutcome sip dip sp dp pt P singleFile = true)) := by
  refine ⟨?_, ?_, ?_, ?_⟩
  · intro sip dip sp dp pt P f
    rcases f with ⟨p, d, a, w⟩
    cases p <;> cases d <;> cases w <;>
      cases hc : convert_wav_to_pcap sip dip sp dp pt P a <;>
      simp [convertFileOutcome, hc]
  · intro sip dip sp dp pt P pat out files
    unfold batch_convert
    rw [batch_convert_fold]
    simp only [List.nil_append, Nat.zero_add]
    exact length_filter_split _ _ files
  · intro sip dip sp dp pt P pat out files singleFile
    simp [mainExitCode]
  · intro sip dip sp dp pt P pat out files singleFile
    cases hc : convertFileOutcome sip dip sp dp pt P singleFile <;>
      simp [mainExitCode, hc]

/-- C8 (amended): exactly the directory entries whose lower-cased name ends
in ".wav" and, when a filter substring is given, contains it, are processed;
the output path is the output directory joined with the entry's name sent
through Python's case-sensitive `replace(".wav", ".pcap")` — so a name whose
only literal ".wav" occurrence is its extension has exactly that extension
replaced, while an upper-case ".WAV" extension is left unchanged and
interior ".wav" occurrences are replaced too. -/
theorem claim_C8_amended :
    (∀ (pat : Option (List Char)) (name : List Char),
        wavSelect pat name = true
          ↔ (".wav".data <:+ lowerStr name ∧ ∀ p ∈ pat, p <:+: name))
      ∧ (∀ (sip dip sp dp pt : Nat) (P : Int) (pat : Option (List Char))
            (out : List Char) (files : List (List Char × WavFile)),
          (batch_convert sip dip sp dp pt P pat out files).1
            = batchJobs pat out (files.map Prod.fst))
      ∧ (∀ stem : List Char,
          (∀ i, i < stem.length →
            ".wav".data.isPrefixOf ((stem ++ ".wav".data).drop i) = false) →
          strReplace (stem ++ ".wav".data) ".wav".data ".pcap".data
            = stem ++ ".pcap".data) := by
  refine ⟨?_, ?_, ?_⟩
  · intro pat name
    cases pat with
    | none => simp [wavSelect]
    | some p => simp [wavSelect, strContains_iff]
  · intro sip dip sp dp pt P pat out files
    unfold batch_convert
    rw [batch_convert_fold]
    simp
  · intro stem hocc
    unfold strReplace
    rw [strReplaceAux_append ".wav".data ".pcap".data stem ".wav".data
      ((stem ++ ".wav".data).length) (Nat.le_refl _) hocc]
    have hidx : (stem ++ ".wav".data).length - stem.length = 4 := by
      rw [List.length_append, show (".wav".data).length = 4 from rfl]
      omega
    rw [hidx]
    rfl

/-- Counterexample to C8 as stated: the entry "A.WAV" is selected (its
lower-cased name ends in ".wav"), but `replace(".wav", ".pcap")` is
case-sensitive, so the derived output path keeps the ".WAV" extension
instead of carrying the ".pcap" extension the claim requires. -/
theorem claim_C8_counterexample :
    (batch_convert 1 2 3 4 0 (160 : Int) none "out".data
        [("A.WAV".data,
          { present := false, decodes := false, audio_bytes := [], writeOk := false })]).1
      = [pathJoin "out".data "A.WAV".data]
      ∧ pathJoin "out".data "A.WAV".data ≠ pathJoin "out".data "A.pcap".data := by
  constructor
  · rfl
  · decide

/-- Witness for C8 (amended): a lowercase name whose only ".wav" occurrence
is its extension has exactly that extension replaced. -/
theorem claim_C8_amended_witness :
    strReplace ("demo".data ++ ".wav".data) ".wav".data ".pcap".data
      = "demo".data ++ ".pcap".data :=
  claim_C8_amended.2.2 "demo".data (by decide)

/-- Witness for C7 at a concrete two-packet stream (four audio bytes, packet
size 3), checked at packet index 1. -/
theorem claim_C7_encapsulation_witness :
    (((convert_wav_to_pcap 5 6 7 8 0 (3 : Int) [1, 2, 3, 4]).getD []).getD 1
        dummyRec).header.length = 12
      ∧ (((convert_wav_to_pcap 5 6 7 8 0 (3 : Int) [1, 2, 3, 4]).getD []).getD 1
          dummyRec).frame
        = etherHeaderBytes
          ++ ipv4Header 5 6
            (28 + ((((convert_wav_to_pcap 5 6 7 8 0 (3 : Int) [1, 2, 3, 4]).getD []).getD 1
                dummyRec).header
              ++ (((convert_wav_to_pcap 5 6 7 8 0 (3 : Int) [1, 2, 3, 4]).getD []).getD 1
                dummyRec).chunk).length)
          ++ udpHeader 5 6 7 8
            ((((convert_wav_to_pcap 5 6 7 8 0 (3 : Int) [1, 2, 3, 4]).getD []).getD 1
                dummyRec).header
              ++ (((convert_wav_to_pcap 5 6 7 8 0 (3 : Int) [1, 2, 3, 4]).getD []).getD 1
                dummyRec).chunk)
          ++ ((((convert_wav_to_pcap 5 6 7 8 0 (3 : Int) [1, 2, 3, 4]).getD []).getD 1
                dummyRec).header
              ++ (((convert_wav_to_pcap 5 6 7 8 0 (3 : Int) [1, 2, 3, 4]).getD []).getD 1
                dummyRec).chunk)
      ∧ (((convert_wav_to_pcap 5 6 7 8 0 (3 : Int) [1, 2, 3, 4]).getD []).getD 1
            dummyRec).frame.drop 42
        = (((convert_wav_to_pcap 5 6 7 8 0 (3 : Int) [1, 2, 3, 4]).getD []).getD 1
              dummyRec).header
            ++ (((convert_wav_to_pcap 5 6 7 8 0 (3 : Int) [1, 2, 3, 4]).getD []).getD 1
              dummyRec).chunk
      ∧ ((((convert_wav_to_pcap 5 6 7 8 0 (3 : Int) [1, 2, 3, 4]).getD []).getD 1
            dummyRec).frame.drop 16).take 2
        = u16be (28 + ((((convert_wav_to_pcap 5 6 7 8 0 (3 : Int) [1, 2, 3, 4]).getD []).getD 1
              dummyRec).header
            ++ (((convert_wav_to_pcap 5 6 7 8 0 (3 : Int) [1, 2, 3, 4]).getD []).getD 1
              dummyRec).chunk).length)
      ∧ ((((convert_wav_to_pcap 5 6 7 8 0 (3 : Int) [1, 2, 3, 4]).getD []).getD 1
            dummyRec).frame.drop 38).take 2
        = u16be (8 + ((((convert_wav_to_pcap 5 6 7 8 0 (3 : Int) [1, 2, 3, 4]).getD []).getD 1
              dummyRec).header
            ++ (((convert_wav_to_pcap 5 6 7 8 0 (3 : Int) [1, 2, 3, 4]).getD []).getD 1
              dummyRec).chunk).length)
      ∧ ((((convert_wav_to_pcap 5 6 7 8 0 (3 : Int) [1, 2, 3, 4]).getD []).getD 1
            dummyRec).frame.drop 26).take 4 = u32be 5
      ∧ ((((convert_wav_to_pcap 5 6 7 8 0 (3 : Int) [1, 2, 3, 4]).getD []).getD 1
            dummyRec).frame.drop 30).take 4 = u32be 6
      ∧ ((((convert_wav_to_pcap 5 6 7 8 0 (3 : Int) [1, 2, 3, 4]).getD []).getD 1
            dummyRec).frame.drop 34).take 2 = u16be 7
      ∧ ((((convert_wav_to_pcap 5 6 7 8 0 (3 : Int) [1, 2, 3, 4]).getD []).getD 1
            dummyRec).frame.drop 36).take 2 = u16be 8 :=
  claim_C7_encapsulation 5 6 7 8 0 (3 : Int) [1, 2, 3, 4]
    ((convert_wav_to_pcap 5 6 7 8 0 (3 : Int) [1, 2, 3, 4]).getD []) (by rfl) 1 (by decide)
